import Mathlib

/-!
Verification development for the choreo-Vib3 parameter-composition engine.

The definitions below are shallow embeddings of the repository's code:
the Dart HybridParameterEngine (reaction routing and blending), the
JavaScript AudioAnalyzer (band analysis, onset detection, BPM
estimation), the JavaScript ChoreographyEngine (sequence triggers,
active-sequence lifecycle, stage application, memory update) and the
JavaScript RotationChoreographer (bass_momentum pattern).  Machine
floating point is modelled by exact rationals or reals; times are
integer or rational milliseconds.
-/

/- ### HybridParameterEngine (Dart): audio routing and reaction offsets -/

/-- Audio band selector, mirroring the AudioBand cases read by
getBandValue in the Dart engine. -/
inductive AudioBand
  | bass
  | mid
  | high
  | rms
  | spectralFlux
deriving DecidableEq

/-- Routing response curve names. -/
inductive RoutingCurve
  | linear
  | exponential
  | logarithmic
deriving DecidableEq

/-- Modelled from the spec: RoutingCurve.apply is invoked by the Dart
engine but its body is not in the repository; section 4.4 of the spec
gives linear x, exponential x squared, logarithmic log(1+x)/log 2. -/
noncomputable def RoutingCurve.apply : RoutingCurve → ℝ → ℝ
  | .linear, x => x
  | .exponential, x => x ^ 2
  | .logarithmic, x => Real.log (1 + x) / Real.log 2

/-- One audio routing entry (parameter, sourceBand, amount, threshold,
curve), as read by HybridParameterEngine.calculate. -/
structure AudioRouting where
  parameter : String
  sourceBand : AudioBand
  amount : ℝ
  threshold : ℝ
  curve : RoutingCurve

/-- The slice of the per-tick audio frame consumed by the Dart engine:
a band map plus rms and spectralFlux. -/
structure AudioFrameD where
  bands : List (String × ℝ)
  rms : ℝ
  spectralFlux : ℝ

/-- Map lookup with the Dart default: audio.bands[name] with missing
keys reading as 0. -/
def mapGetD (m : List (String × ℝ)) (k : String) : ℝ :=
  match m with
  | [] => 0
  | (k2, v) :: rest => if k2 = k then v else mapGetD rest k

/-- HybridParameterEngine getBandValue: dispatch on the band enum. -/
def getBandValue (audio : AudioFrameD) : AudioBand → ℝ
  | .bass => mapGetD audio.bands "bass"
  | .mid => mapGetD audio.bands "mid"
  | .high => mapGetD audio.bands "high"
  | .rms => audio.rms
  | .spectralFlux => audio.spectralFlux

/-- Step 3 of HybridParameterEngine.calculate: walk the routing list;
skip a routing when its source band value is below its threshold,
otherwise add curved value times amount times the global reaction
amount to the routed parameter of the running result map. -/
noncomputable def applyReactions (audio : AudioFrameD) (reactionAmount : ℝ) :
    List AudioRouting → (String → ℝ) → String → ℝ
  | [], result => result
  | r :: rest, result =>
      let bandValue := getBandValue audio r.sourceBand
      if bandValue < r.threshold then
        applyReactions audio reactionAmount rest result
      else
        applyReactions audio reactionAmount rest
          (fun p => if p = r.parameter then
              result p + RoutingCurve.apply r.curve bandValue * r.amount * reactionAmount
            else result p)

/-- The contribution of a single routing to a parameter p: zero when the
routing targets another parameter or its band value is under the
threshold, otherwise curved value times amount times reaction amount. -/
noncomputable def reactionContribution (audio : AudioFrameD) (reactionAmount : ℝ)
    (p : String) (r : AudioRouting) : ℝ :=
  if r.parameter = p then
    (if getBandValue audio r.sourceBand < r.threshold then 0
     else RoutingCurve.apply r.curve (getBandValue audio r.sourceBand) * r.amount * reactionAmount)
  else 0

/-- The reaction offset of a parameter: the sum of the contributions of
all routings over the routing table. -/
noncomputable def reactionOffset (routings : List AudioRouting) (audio : AudioFrameD)
    (reactionAmount : ℝ) (p : String) : ℝ :=
  (routings.map (reactionContribution audio reactionAmount p)).sum

/-- HybridParameterEngine.calculate, steps 1 to 3: base times
manualAmount, plus choreography offset times choreographyAmount, then
the routing pass.  The final clamping step calls a function that is not
defined in the repository and is not part of the reaction-offset
computation, so it is not modelled. -/
noncomputable def calculate (engineBase engineChoreo : String → ℝ)
    (manualAmount choreographyAmount reactionAmount : ℝ)
    (routings : List AudioRouting) (audio : AudioFrameD) : String → ℝ :=
  applyReactions audio reactionAmount routings
    (fun p => engineBase p * manualAmount + engineChoreo p * choreographyAmount)

/- ### AudioAnalyzer (JavaScript): bands, spectral features, onsets, BPM -/

/-- A frequency band: name, Hz range, current smoothed value. -/
structure Band where
  name : String
  low : ℚ
  high : ℚ
  value : ℚ
deriving DecidableEq

/-- Onset event record: detected flag, strength (the spectral flux at
the event), time in milliseconds. -/
structure OnsetEvent where
  detected : Bool
  strength : ℚ
  time : ℤ
deriving DecidableEq

/-- AudioAnalyzer mutable state: smoothed bands, previous frame
spectrum, onset history and threshold, BPM estimate, smoothing factor
and FFT geometry.  Machine doubles are exact rationals except rms,
which needs a square root. -/
structure AnalyzerState where
  smoothedBands : List Band
  prevFreqData : List ℕ
  onsetHistory : List ℤ
  lastOnsetTime : ℤ
  onsetThreshold : ℚ
  maxOnsetHistory : ℕ
  estimatedBPM : ℚ
  smoothingFactor : ℚ
  sampleRate : ℚ
  binCount : ℕ
  spectralCentroid : ℚ
  spectralRolloff : ℚ
  spectralFlux : ℚ
  rms : ℝ
  lastOnsetEvent : OnsetEvent

/-- The per-tick frame the analyzer returns. -/
structure AudioFrame where
  bands : List (String × ℚ)
  bandDetails : List (String × ℚ × ℚ × ℚ)
  spectralCentroid : ℚ
  spectralRolloff : ℚ
  spectralFlux : ℚ
  rms : ℝ
  onset : ℚ
  onsetEvent : OnsetEvent
  bpm : ℚ

/-- JavaScript Math.round: round half towards positive infinity. -/
def jsRound (q : ℚ) : ℤ := ⌊q + 1/2⌋

/-- freqToBin: Math.round(frequency / (sampleRate/2) * binCount). -/
def freqToBin (st : AnalyzerState) (frequency : ℚ) : ℤ :=
  jsRound (frequency / (st.sampleRate / 2) * st.binCount)

/-- binToFreq: bin * (sampleRate/2) / binCount. -/
def binToFreq (st : AnalyzerState) (bin : ℕ) : ℚ :=
  (bin : ℚ) * (st.sampleRate / 2) / st.binCount

/-- Average magnitude of the inclusive bin range of one band,
normalised by 255; 0 when the range is empty.  Bins outside the
spectrum read as 0. -/
def bandAverage (st : AnalyzerState) (freqData : List ℕ) (low high : ℚ) : ℚ :=
  let lowBin := freqToBin st low
  let highBin := freqToBin st high
  if highBin < lowBin then 0
  else
    let idxs := (List.range (highBin - lowBin + 1).toNat).map (fun k => lowBin.toNat + k)
    ((idxs.map (fun i => (freqData.getD i 0 : ℚ))).sum) / idxs.length / 255

/-- analyzeBands: per band, exponential smoothing
smoothed = factor * smoothed + (1 - factor) * raw average. -/
def analyzeBands (st : AnalyzerState) (freqData : List ℕ) : AnalyzerState :=
  { st with smoothedBands := st.smoothedBands.map (fun b =>
      { b with value := st.smoothingFactor * b.value
          + (1 - st.smoothingFactor) * bandAverage st freqData b.low b.high }) }

/-- calcSpectralCentroid: frequency-weighted average magnitude,
normalised by a 10 kHz anchor and clamped to 1; 0 on an empty
spectrum. -/
def calcSpectralCentroid (st : AnalyzerState) (freqData : List ℕ) : ℚ :=
  let weightedSum := (freqData.enum.map (fun p => binToFreq st p.1 * (p.2 : ℚ))).sum
  let magSum := (freqData.map (fun x => (x : ℚ))).sum
  if 0 < magSum then min 1 (weightedSum / magSum / 10000) else 0

/-- Loop of calcSpectralRolloff: first bin index whose cumulative
magnitude reaches the threshold, divided by binCount; 1 when the loop
finishes without reaching it. -/
def rolloffLoop (binCount : ℕ) (threshold : ℚ) : List ℕ → ℚ → ℕ → ℚ
  | [], _, _ => 1
  | x :: xs, acc, i =>
      let acc2 := acc + (x : ℚ)
      if threshold ≤ acc2 then (i : ℚ) / (binCount : ℚ)
      else rolloffLoop binCount threshold xs acc2 (i + 1)

/-- calcSpectralRolloff: threshold is 85 percent of the total energy. -/
def calcSpectralRolloff (st : AnalyzerState) (freqData : List ℕ) : ℚ :=
  let total := (freqData.map (fun x => (x : ℚ))).sum
  rolloffLoop st.binCount (total * (85/100)) freqData 0 0

/-- calcSpectralFlux: sum of positive bin-wise increases against the
previous frame, normalised by binCount * 128 and clamped to 1. -/
def calcSpectralFlux (st : AnalyzerState) (freqData : List ℕ) : ℚ :=
  let fluxSum := (List.zipWith
      (fun a b => if (b : ℤ) < (a : ℤ) then (a : ℤ) - (b : ℤ) else 0)
      freqData st.prevFreqData).sum
  min 1 ((fluxSum : ℚ) / ((st.binCount : ℚ) * 128))

/-- calcRMS: square root of the mean squared sample, samples mapped
from byte range to [-1, 1]. -/
noncomputable def calcRMS (timeData : List ℕ) : ℝ :=
  let sumSquares : ℚ := (timeData.map (fun x => (((x : ℚ) - 128) / 128) ^ 2)).sum
  Real.sqrt ((sumSquares : ℝ) / (timeData.length : ℝ))

/-- detectOnset: fire when spectralFlux strictly exceeds the threshold
and strictly more than 100 ms passed since the last onset; on fire,
record the time, append it to the history and cap the history at
maxOnsetHistory by dropping the oldest entry. -/
def detectOnset (st : AnalyzerState) (now : ℤ) : OnsetEvent × AnalyzerState :=
  if st.onsetThreshold < st.spectralFlux ∧ 100 < now - st.lastOnsetTime then
    let hist := st.onsetHistory ++ [now]
    let hist2 := if st.maxOnsetHistory < hist.length then hist.tail else hist
    let ev : OnsetEvent := ⟨true, st.spectralFlux, now⟩
    (ev, { st with lastOnsetTime := now, onsetHistory := hist2, lastOnsetEvent := ev })
  else
    let ev : OnsetEvent := ⟨false, st.spectralFlux, now⟩
    (ev, { st with lastOnsetEvent := ev })

/-- Consecutive differences of a time list (inter-onset intervals). -/
def onsetIntervals : List ℤ → List ℤ
  | a :: b :: rest => (b - a) :: onsetIntervals (b :: rest)
  | _ => []

/-- Insert into a sorted list (ascending). -/
def insertSorted (x : ℤ) : List ℤ → List ℤ
  | [] => [x]
  | y :: ys => if x ≤ y then x :: y :: ys else y :: insertSorted x ys

/-- Ascending numeric sort, as intervals.sort((a, b) => a - b). -/
def sortInts (l : List ℤ) : List ℤ := l.foldr insertSorted []

/-- The median interval the analyzer uses: the entry at index
floor(length / 2) of the ascending-sorted interval list. -/
def medianInterval (history : List ℤ) : ℚ :=
  let ints := sortInts (onsetIntervals history)
  ((ints.getD (ints.length / 2) 0 : ℤ) : ℚ)

/-- estimateBPM: with fewer than 4 onsets return 120 and leave the
state untouched; otherwise store 60000 / medianInterval clamped to
[60, 200]. -/
def estimateBPM (st : AnalyzerState) : ℚ × AnalyzerState :=
  if st.onsetHistory.length < 4 then (120, st)
  else
    let bpm := 60000 / medianInterval st.onsetHistory
    let clamped := max 60 (min 200 bpm)
    (clamped, { st with estimatedBPM := clamped })

/-- createSilentFrame: every signal field zero, a non-detected onset
event, bpm holding the current estimate. -/
def createSilentFrame (st : AnalyzerState) (now : ℤ) : AudioFrame :=
  { bands := st.smoothedBands.map (fun b => (b.name, (0 : ℚ)))
    bandDetails := st.smoothedBands.map (fun b => (b.name, b.low, b.high, (0 : ℚ)))
    spectralCentroid := 0
    spectralRolloff := 0
    spectralFlux := 0
    rms := 0
    onset := 0
    onsetEvent := ⟨false, 0, now⟩
    bpm := st.estimatedBPM }

/-- The raw audio snapshot the analyzer pulls each frame. -/
structure RawAudio where
  freqData : List ℕ
  timeData : List ℕ

/-- AudioAnalyzer.analyze: when the raw data cannot be obtained (none)
return the silent frame unchanged state; otherwise run bands, spectral
features, onset detection and, once at least 4 onsets are recorded, the
BPM estimate, then store the spectrum for the next flux. -/
noncomputable def analyze (st : AnalyzerState) (now : ℤ) (raw : Option RawAudio) :
    AudioFrame × AnalyzerState :=
  match raw with
  | none => (createSilentFrame st now, st)
  | some r =>
      let st1 := analyzeBands st r.freqData
      let centroid := calcSpectralCentroid st1 r.freqData
      let rolloff := calcSpectralRolloff st1 r.freqData
      let flux := calcSpectralFlux st1 r.freqData
      let rmsValue := calcRMS r.timeData
      let st2 := { st1 with spectralCentroid := centroid, spectralRolloff := rolloff,
                            spectralFlux := flux, rms := rmsValue }
      let res := detectOnset st2 now
      let st3 := res.2
      let st4 := if 4 ≤ st3.onsetHistory.length then (estimateBPM st3).2 else st3
      let st5 := { st4 with prevFreqData := r.freqData }
      let frame : AudioFrame :=
        { bands := st5.smoothedBands.map (fun b => (b.name, b.value))
          bandDetails := st5.smoothedBands.map (fun b => (b.name, b.low, b.high, b.value))
          spectralCentroid := centroid
          spectralRolloff := rolloff
          spectralFlux := flux
          rms := rmsValue
          onset := res.1.strength
          onsetEvent := res.1
          bpm := st5.estimatedBPM }
      (frame, st5)

/-- The analyzer state right after the constructor with default
options: the 8 canonical bands at 0, empty histories, threshold 0.15,
cap 32, BPM 120, band smoothing 0.8, fftSize 2048 at 44100 Hz. -/
def initialAnalyzer : AnalyzerState :=
  { smoothedBands :=
      [⟨"subBass", 20, 60, 0⟩, ⟨"bass", 60, 250, 0⟩, ⟨"lowMid", 250, 500, 0⟩,
       ⟨"mid", 500, 2000, 0⟩, ⟨"highMid", 2000, 4000, 0⟩, ⟨"high", 4000, 8000, 0⟩,
       ⟨"air", 8000, 12000, 0⟩, ⟨"ultraHigh", 12000, 20000, 0⟩]
    prevFreqData := List.replicate 1024 0
    onsetHistory := []
    lastOnsetTime := 0
    onsetThreshold := 3/20
    maxOnsetHistory := 32
    estimatedBPM := 120
    smoothingFactor := 4/5
    sampleRate := 44100
    binCount := 1024
    spectralCentroid := 0
    spectralRolloff := 0
    spectralFlux := 0
    rms := 0
    lastOnsetEvent := ⟨false, 0, 0⟩ }

/-- A run of onset detections: each step sets the computed flux and
calls detectOnset at the given time, as analyze does every frame. -/
def runDetect (st : AnalyzerState) : List (ℚ × ℤ) → AnalyzerState
  | [] => st
  | (flux, now) :: rest =>
      runDetect (detectOnset { st with spectralFlux := flux } now).2 rest

/-- Invariant of the onset detector state: history entries are spaced
strictly more than 100 ms apart, none exceeds the last onset time, and
the history respects the cap. -/
def OnsetInvariant (st : AnalyzerState) : Prop :=
  st.onsetHistory.Pairwise (fun a b => a + 100 < b)
  ∧ (∀ x ∈ st.onsetHistory, x ≤ st.lastOnsetTime)
  ∧ st.onsetHistory.length ≤ st.maxOnsetHistory

/- ### ChoreographyEngine (JavaScript): stage application -/

/-- An interpolation endpoint: either the sentinel string current or a
numeric literal. -/
inductive EndPoint
  | current
  | val (x : ℝ)

/-- The tagged union of stage parameter changes: interpolate (from, to,
optional easing name), spike with optional decay, jump. -/
inductive ChangeSpec
  | interpolate (src dst : EndPoint) (easing : Option String)
  | spikeDecay (spike : ℝ) (decay : Option ℝ)
  | jump (x : ℝ)

/-- getEasingFunction: named easing curves with linear as the fallback
for unknown names. -/
noncomputable def getEasingFunction (name : String) : ℝ → ℝ :=
  if name = "linear" then fun t => t
  else if name = "easeIn" then fun t => t * t
  else if name = "easeOut" then fun t => t * (2 - t)
  else if name = "easeInOut" then fun t => if t < 1/2 then 2 * t * t else -1 + (4 - 2 * t) * t
  else if name = "exponential" then fun t => if t = 0 then 0 else (2 : ℝ) ^ (10 * (t - 1))
  else fun t => t

/-- getCurrentParam: the engine does not query the visualizers; it
returns the constant 0 for every parameter. -/
def getCurrentParam (_param : String) : ℝ := 0

/-- The value applyStage computes for one parameter change at the given
stage progress.  An absent or empty easing reads as linear; an absent
or zero decay reads as 0.95 (both mirror JavaScript truthiness of the
delinquent field). -/
noncomputable def computeChangeValue (change : ChangeSpec) (param : String)
    (progress : ℝ) : Option ℝ :=
  match change with
  | .interpolate src dst easing =>
      let easingName := match easing with
        | none => "linear"
        | some e => if e = "" then "linear" else e
      let t := getEasingFunction easingName progress
      let a := match src with | .current => getCurrentParam param | .val x => x
      let b := match dst with | .current => getCurrentParam param | .val x => x
      some (a + (b - a) * t)
  | .spikeDecay spike decay =>
      let d := match decay with
        | none => (19 : ℝ) / 20
        | some dd => if dd = 0 then (19 : ℝ) / 20 else dd
      some (spike * d ^ (progress * 100))
  | .jump x => some x

/- ### ChoreographyEngine: sequence triggers and active instances -/

/-- A defined sequence: unique name and duration in milliseconds
(trigger outcomes are supplied per tick as a boolean function). -/
structure SeqDef where
  name : String
  duration : ℤ
deriving DecidableEq

/-- An active sequence instance: the spread sequence plus its start
time. -/
structure ActiveSeq where
  name : String
  startTime : ℤ
  duration : ℤ
deriving DecidableEq

/-- checkTriggers: for each defined sequence, skip it when an instance
with its name is already active, otherwise start it at the current time
when its trigger fired this tick.  Instances pushed earlier in the same
pass are visible to later checks. -/
def checkTriggers (fires : String → Bool) (t : ℤ) :
    List SeqDef → List ActiveSeq → List ActiveSeq
  | [], acts => acts
  | sq :: rest, acts =>
      if acts.any (fun a => a.name == sq.name) then checkTriggers fires t rest acts
      else if fires sq.name then
        checkTriggers fires t rest (acts ++ [⟨sq.name, t, sq.duration⟩])
      else checkTriggers fires t rest acts

/-- updateActiveSequences: keep exactly the instances whose elapsed
time is still below their duration. -/
def updateActiveSequences (t : ℤ) (acts : List ActiveSeq) : List ActiveSeq :=
  acts.filter (fun a => decide (t - a.startTime < a.duration))

/-- One tick of sequence management, in the order the animation loop
runs it: trigger checks first, then advancement and removal. -/
def tickSequences (fires : String → Bool) (t : ℤ) (seqs : List SeqDef)
    (acts : List ActiveSeq) : List ActiveSeq :=
  updateActiveSequences t (checkTriggers fires t seqs acts)

/- ### ChoreographyEngine: memory system -/

/-- Rotation momentum around the three hyperplanes. -/
structure Momentum where
  xw : ℚ
  yw : ℚ
  zw : ℚ
deriving DecidableEq

/-- The engine memory record created by the constructor. -/
structure EngineMemory where
  recentBassHits : List ℚ
  predictedNextBass : Option ℚ
  colorJourneyPosition : ℚ
  geometrySequence : List ℕ
  rotationMomentum : Momentum
  energyTrend : String
  lastOnsetTime : ℚ
  lastOnsetEvent : Option OnsetEvent
  energyHistory : List ℚ

/-- The memory as initialised by the ChoreographyEngine constructor. -/
def initialMemory : EngineMemory :=
  { recentBassHits := []
    predictedNextBass := none
    colorJourneyPosition := 0
    geometrySequence := []
    rotationMomentum := ⟨0, 0, 0⟩
    energyTrend := "neutral"
    lastOnsetTime := 0
    lastOnsetEvent := none
    energyHistory := [] }

/-- Consecutive differences of a rational list. -/
def consecutiveDiffs : List ℚ → List ℚ
  | a :: b :: rest => (b - a) :: consecutiveDiffs (b :: rest)
  | _ => []

/-- calculateSlope: least-squares slope over the indexed samples; 0 for
fewer than two samples. -/
def calculateSlope (data : List ℚ) : ℚ :=
  if data.length < 2 then 0
  else
    let n : ℚ := data.length
    let sumX := ((List.range data.length).map (fun i => (i : ℚ))).sum
    let sumY := data.sum
    let sumXY := (data.enum.map (fun p => (p.1 : ℚ) * p.2)).sum
    let sumX2 := ((List.range data.length).map (fun i => (i : ℚ) * (i : ℚ))).sum
    (n * sumXY - sumX * sumY) / (n * sumX2 - sumX * sumX)

/-- updateMemory: track bass hits (cap 10, predict the next from the
average interval once 3 exist), track the energy history (cap 20) and
its trend with a 0.01 dead band once 10 samples exist, and accumulate
rotation momentum: zw gains bass times 0.1 when bass exceeds 0.5 and
zw is scaled by 0.98 every tick. -/
def updateMemory (m : EngineMemory) (bass rms : ℚ) (currentTime : ℚ) : EngineMemory :=
  let hits :=
    if 7/10 < bass then
      let h := m.recentBassHits ++ [currentTime]
      if 10 < h.length then h.tail else h
    else m.recentBassHits
  let predicted :=
    if 7/10 < bass ∧ 3 ≤ hits.length then
      let ints := consecutiveDiffs hits
      some (currentTime + ints.sum / ints.length)
    else m.predictedNextBass
  let eh :=
    let e := m.energyHistory ++ [rms]
    if 20 < e.length then e.tail else e
  let trend :=
    if 10 ≤ eh.length then
      let slope := calculateSlope eh
      if 1/100 < slope then "building"
      else if slope < -(1/100) then "releasing"
      else "stable"
    else m.energyTrend
  let zw2 := (m.rotationMomentum.zw + (if 1/2 < bass then bass * (1/10) else 0)) * (49/50)
  { m with recentBassHits := hits
           predictedNextBass := predicted
           energyHistory := eh
           energyTrend := trend
           rotationMomentum := { m.rotationMomentum with zw := zw2 } }

/-- Iterate updateMemory over a list of (bass, rms, time) frames. -/
def runMemory (m : EngineMemory) : List (ℚ × ℚ × ℚ) → EngineMemory
  | [] => m
  | (bass, rms, t) :: rest => runMemory (updateMemory m bass rms t) rest

/- ### RotationChoreographer (JavaScript): bass_momentum pattern -/

/-- The momentum mutation of the bass_momentum update: accumulate
bassHit times 0.3 on zw and bassHit times 0.1 on xw when bassHit
exceeds 0.6, then scale every component by the decay factor.  The
rotation angles the pattern returns are the components scaled by pi
and are not part of the momentum state. -/
def bassMomentumStep (m : Momentum) (bassHit decay : ℚ) : Momentum :=
  let m1 :=
    if 3/5 < bassHit then
      { m with zw := m.zw + bassHit * (3/10), xw := m.xw + bassHit * (1/10) }
    else m
  { xw := m1.xw * decay, yw := m1.yw * decay, zw := m1.zw * decay }

/-- The post-update momentum after each element of a bass-hit list. -/
def bassMomentumRun (m : Momentum) (hits : List ℚ) (decay : ℚ) : List Momentum :=
  match hits with
  | [] => []
  | h :: rest =>
      let m2 := bassMomentumStep m h decay
      m2 :: bassMomentumRun m2 rest decay

/- ### Helper lemmas -/

theorem applyReactions_eq_add (audio : AudioFrameD) (ra : ℝ) :
    ∀ (routings : List AudioRouting) (result : String → ℝ) (p : String),
      applyReactions audio ra routings result p
        = result p + reactionOffset routings audio ra p := by
  intro routings
  induction routings with
  | nil =>
      intro result p
      simp [applyReactions, reactionOffset]
  | cons r rest ih =>
      intro result p
      by_cases h : getBandValue audio r.sourceBand < r.threshold
      · simp only [applyReactions, if_pos h]
        rw [ih]
        simp [reactionOffset, reactionContribution, h]
      · simp only [applyReactions, if_neg h]
        rw [ih]
        by_cases hp : p = r.parameter
        · simp only [reactionOffset, reactionContribution, List.map_cons, List.sum_cons,
            if_pos hp, if_pos hp.symm, if_neg h]
          ring
        · simp only [reactionOffset, reactionContribution, List.map_cons, List.sum_cons,
            if_neg hp, if_neg (Ne.symm hp)]
          ring

theorem runMemory_preserves_xw_yw (frames : List (ℚ × ℚ × ℚ)) :
    ∀ m : EngineMemory,
      (runMemory m frames).rotationMomentum.xw = m.rotationMomentum.xw
      ∧ (runMemory m frames).rotationMomentum.yw = m.rotationMomentum.yw := by
  induction frames with
  | nil => intro m; exact ⟨rfl, rfl⟩
  | cons f rest ih =>
      intro m
      obtain ⟨bass, rms, t⟩ := f
      have h := ih (updateMemory m bass rms t)
      simpa [runMemory, updateMemory] using h

/- ### Claims -/

/-- Claim C1: for every parameter targeted by at least one AudioRouting,
the tick result decomposes as scaled base plus scaled choreography
offset plus a reaction offset equal to the sum, over routings targeting
the parameter, of 0 below threshold and otherwise curved band value
times amount times the global reaction amount; the two-routing
intensity example with bass 0.4 and mid 0.6 sums to 0.7. -/
theorem C1_reaction_offset_sums_routings :
    (∀ (routings : List AudioRouting) (audio : AudioFrameD) (ra : ℝ)
        (engineBase engineChoreo : String → ℝ)
        (manualAmount choreographyAmount : ℝ) (p : String),
        calculate engineBase engineChoreo manualAmount choreographyAmount ra routings audio p
          = engineBase p * manualAmount + engineChoreo p * choreographyAmount
            + reactionOffset routings audio ra p)
    ∧ reactionOffset
        [⟨"intensity", .bass, 1, 0, .linear⟩, ⟨"intensity", .mid, 1/2, 0, .linear⟩]
        ⟨[("bass", 2/5), ("mid", 3/5)], 0, 0⟩ 1 "intensity" = 7/10 := by
  constructor
  · intro routings audio ra engineBase engineChoreo ma ca p
    unfold calculate
    rw [applyReactions_eq_add]
  · simp [reactionOffset, reactionContribution, getBandValue, mapGetD, RoutingCurve.apply]
    norm_num

/-- Claim C3 counterexample: from zero momentum, one bass_momentum
update with bassHit 0.9 and decay 0.98 leaves momentum.zw at 0.2646,
which is not approximately 0.27: decay is applied in the same tick as
the accumulation, so the claimed first value 0.27 is never the
post-update state. -/
theorem C3_counterexample :
    (bassMomentumStep ⟨0, 0, 0⟩ (9/10) (49/50)).zw = 1323/5000
    ∧ ¬ |(bassMomentumStep ⟨0, 0, 0⟩ (9/10) (49/50)).zw - 27/100| ≤ 1/500 := by
  have h : (bassMomentumStep ⟨0, 0, 0⟩ (9/10) (49/50)).zw = 1323/5000 := by
    simp only [bassMomentumStep]
    rw [if_pos (by norm_num : (3:ℚ)/5 < 9/10)]
    norm_num
  refine ⟨h, ?_⟩
  rw [not_le, h,
    show (1323/5000 : ℚ) - 27/100 = -(27/5000) by norm_num,
    abs_neg, abs_of_nonneg (by norm_num : (0:ℚ) ≤ 27/5000)]
  norm_num

/-- Claim C3 (amended): the bass_momentum update adds 0.3 times bass to
momentum.zw and 0.1 times bass to momentum.xw only when bass exceeds
0.6 and scales every component by the decay factor in the same tick, so
the bass sequence [0.9, 0, 0, 0, 0] with decay 0.98 produces
momentum.zw exactly [0.2646, 0.259308, 0.25412184, 0.2490394032,
0.244058615136], that is 0.27 times successive powers of 0.98 starting
at the first power. -/
theorem C3_bass_momentum_amended :
    (∀ (m : Momentum) (bassHit decay : ℚ),
        bassMomentumStep m bassHit decay =
          if 3/5 < bassHit then
            ⟨(m.xw + bassHit * (1/10)) * decay, m.yw * decay, (m.zw + bassHit * (3/10)) * decay⟩
          else ⟨m.xw * decay, m.yw * decay, m.zw * decay⟩)
    ∧ (bassMomentumRun ⟨0, 0, 0⟩ [9/10, 0, 0, 0, 0] (49/50)).map Momentum.zw
        = [1323/5000, 64827/250000, 3176523/12500000,
           155649627/625000000, 7626831723/31250000000] := by
  constructor
  · intro m bassHit decay
    simp only [bassMomentumStep]
    split <;> rfl
  · simp only [bassMomentumRun, bassMomentumStep, List.map_cons, List.map_nil]
    norm_num

/-- Claim C4 (code bug): resolving the sentinel current during stage
application goes through getCurrentParam, which returns the constant 0
for every parameter instead of the live parameter value, so an
interpolation from current to 5 at progress one half yields 2.5
whatever the live value is. -/
theorem C4_current_endpoint_reads_constant_zero :
    (∀ p : String, getCurrentParam p = 0)
    ∧ computeChangeValue (.interpolate .current (.val 5) (some "linear")) "intensity" (1/2)
        = some (5/2) := by
  constructor
  · intro p; rfl
  · simp [computeChangeValue, getEasingFunction, getCurrentParam]
    norm_num

/-- Claim C5: whenever the raw audio data cannot be obtained, analyze
returns the well-formed silent frame without error: every band value is
zero, the spectral features, rms and onset strength are zero, the onset
event is not detected, and the frame still carries one entry per
smoothed band (the eight canonical bands from the constructor). -/
theorem C5_analyze_silent_frame (st : AnalyzerState) (now : ℤ) :
    analyze st now none = (createSilentFrame st now, st)
    ∧ (∀ p ∈ (analyze st now none).1.bands, p.2 = 0)
    ∧ (analyze st now none).1.spectralCentroid = 0
    ∧ (analyze st now none).1.spectralRolloff = 0
    ∧ (analyze st now none).1.spectralFlux = 0
    ∧ (analyze st now none).1.rms = 0
    ∧ (analyze st now none).1.onset = 0
    ∧ (analyze st now none).1.onsetEvent = ⟨false, 0, now⟩
    ∧ (analyze st now none).1.bands.map Prod.fst = st.smoothedBands.map Band.name
    ∧ (analyze initialAnalyzer 0 none).1.bands.map Prod.fst
        = ["subBass", "bass", "lowMid", "mid", "highMid", "high", "air", "ultraHigh"] := by
  refine ⟨rfl, ?_, rfl, rfl, rfl, rfl, rfl, rfl, ?_, ?_⟩
  · intro p hp
    simp only [analyze, createSilentFrame, List.mem_map] at hp
    obtain ⟨b, _, rfl⟩ := hp
    rfl
  · simp [analyze, createSilentFrame]
  · rfl

/-- Claim C10: the per-tick memory update writes only the zw component
of the rotation momentum, as zw plus 0.1 times bass when bass exceeds
0.5, scaled by 0.98; xw and yw are never written, so from the
constructor state they stay 0 over every run. -/
theorem C10_memory_momentum_only_zw :
    (∀ (m : EngineMemory) (bass rms t : ℚ),
        (updateMemory m bass rms t).rotationMomentum.xw = m.rotationMomentum.xw
        ∧ (updateMemory m bass rms t).rotationMomentum.yw = m.rotationMomentum.yw
        ∧ (updateMemory m bass rms t).rotationMomentum.zw
            = (m.rotationMomentum.zw + (if 1/2 < bass then bass * (1/10) else 0)) * (49/50))
    ∧ initialMemory.rotationMomentum.xw = 0
    ∧ initialMemory.rotationMomentum.yw = 0
    ∧ (∀ frames : List (ℚ × ℚ × ℚ),
        (runMemory initialMemory frames).rotationMomentum.xw = 0
        ∧ (runMemory initialMemory frames).rotationMomentum.yw = 0) := by
  refine ⟨?_, rfl, rfl, ?_⟩
  · intro m bass rms t
    refine ⟨rfl, rfl, rfl⟩
  · intro frames
    have h := runMemory_preserves_xw_yw frames initialMemory
    simpa [initialMemory] using h

/-- Claim C2: with at least 4 recorded onsets the stored BPM estimate is
60000 over the median inter-onset interval clamped to [60, 200] (10 ms
intervals give 200, 2000 ms intervals give 60); with fewer than 4
onsets the stored estimate, initially 120, is unchanged. -/
theorem C2_bpm_median_clamped (st stFew : AnalyzerState)
    (h4 : 4 ≤ st.onsetHistory.length) (hlt : stFew.onsetHistory.length < 4) :
    (estimateBPM st).2.estimatedBPM
        = max 60 (min 200 (60000 / medianInterval st.onsetHistory))
    ∧ 60 ≤ (estimateBPM st).2.estimatedBPM
    ∧ (estimateBPM st).2.estimatedBPM ≤ 200
    ∧ (estimateBPM stFew).2 = stFew
    ∧ initialAnalyzer.estimatedBPM = 120
    ∧ (estimateBPM { initialAnalyzer with onsetHistory := [0, 10, 20, 30] }).2.estimatedBPM = 200
    ∧ (estimateBPM { initialAnalyzer with onsetHistory := [0, 2000, 4000, 6000] }).2.estimatedBPM
        = 60 := by
  have hmain : ∀ s : AnalyzerState, 4 ≤ s.onsetHistory.length →
      (estimateBPM s).2.estimatedBPM
        = max 60 (min 200 (60000 / medianInterval s.onsetHistory)) := by
    intro s hs
    simp only [estimateBPM, if_neg (Nat.not_lt.mpr hs)]
  refine ⟨hmain st h4, ?_, ?_, ?_, rfl, ?_, ?_⟩
  · rw [hmain st h4]; exact le_max_left _ _
  · rw [hmain st h4]
    exact max_le (by norm_num) (min_le_left _ _)
  · simp only [estimateBPM, if_pos hlt]
  · rw [hmain { initialAnalyzer with onsetHistory := [0, 10, 20, 30] } (by decide)]
    have hh : ({ initialAnalyzer with onsetHistory := [0, 10, 20, 30] } :
        AnalyzerState).onsetHistory = [0, 10, 20, 30] := rfl
    rw [hh]
    have hm : medianInterval [0, 10, 20, 30] = 10 := by
      norm_num [medianInterval, onsetIntervals, sortInts, insertSorted,
        List.foldr, List.getD]
    rw [hm]
    norm_num [min_def, max_def]
  · rw [hmain { initialAnalyzer with onsetHistory := [0, 2000, 4000, 6000] } (by decide)]
    have hh : ({ initialAnalyzer with onsetHistory := [0, 2000, 4000, 6000] } :
        AnalyzerState).onsetHistory = [0, 2000, 4000, 6000] := rfl
    rw [hh]
    have hm : medianInterval [0, 2000, 4000, 6000] = 2000 := by
      norm_num [medianInterval, onsetIntervals, sortInts, insertSorted,
        List.foldr, List.getD]
    rw [hm]
    norm_num [min_def, max_def]

/-- Witness for C2 at a concrete 4-onset history of 10 ms steps and the
fresh analyzer. -/
theorem C2_bpm_median_clamped_witness :
    4 ≤ ({ initialAnalyzer with onsetHistory := [0, 10, 20, 30] } : AnalyzerState).onsetHistory.length
    ∧ initialAnalyzer.onsetHistory.length < 4
    ∧ (estimateBPM { initialAnalyzer with onsetHistory := [0, 10, 20, 30] }).2.estimatedBPM
        = max 60 (min 200 (60000 /
            medianInterval ({ initialAnalyzer with
              onsetHistory := [0, 10, 20, 30] } : AnalyzerState).onsetHistory)) :=
  ⟨by decide, by decide,
   (C2_bpm_median_clamped { initialAnalyzer with onsetHistory := [0, 10, 20, 30] }
      initialAnalyzer (by decide) (by decide)).1⟩

/-- Claim C9: a SpikeDecay change evaluates to spike times decay to the
power of progress times 100; the spike 2.0 decay 0.9 example is exactly
2.0 at progress 0 and about 0.0103 at progress one half, and the value
is strictly decreasing in progress for decay strictly between 0 and 1
and positive spike. -/
theorem C9_spike_decay_value (p : String) (spike d t t1 t2 : ℝ)
    (hd0 : 0 < d) (hd1 : d < 1) (hspike : 0 < spike) (h12 : t1 < t2) :
    computeChangeValue (.spikeDecay spike (some d)) p t = some (spike * d ^ (t * 100))
    ∧ computeChangeValue (.spikeDecay 2 (some (9/10))) p 0 = some 2
    ∧ (∀ v : ℝ, computeChangeValue (.spikeDecay 2 (some (9/10))) p (1/2) = some v →
        |v - 103/10000| < 1/10000)
    ∧ spike * d ^ (t2 * 100) < spike * d ^ (t1 * 100) := by
  refine ⟨?_, ?_, ?_, ?_⟩
  · simp [computeChangeValue, hd0.ne']
  · simp only [computeChangeValue]
    rw [if_neg (by norm_num : ¬ ((9:ℝ)/10 = 0))]
    norm_num
  · intro v hv
    simp only [computeChangeValue] at hv
    rw [if_neg (by norm_num : ¬ ((9:ℝ)/10 = 0))] at hv
    have hv2 : (2:ℝ) * (9/10) ^ ((1/2 : ℝ) * 100) = v := Option.some.inj hv
    have h50 : ((1:ℝ)/2) * 100 = ((50 : ℕ) : ℝ) := by norm_num
    rw [h50, Real.rpow_natCast] at hv2
    rw [← hv2, abs_lt]
    constructor <;> norm_num
  · have hexp : t1 * 100 < t2 * 100 := by linarith
    exact mul_lt_mul_of_pos_left (Real.rpow_lt_rpow_of_exponent_gt hd0 hd1 hexp) hspike

/-- Witness for C9: the spike 2.0 decay 0.9 example between progress 0
and progress 1. -/
theorem C9_spike_decay_value_witness :
    ((0:ℝ) < 9/10 ∧ (9/10:ℝ) < 1 ∧ (0:ℝ) < 2 ∧ (0:ℝ) < 1)
    ∧ (computeChangeValue (.spikeDecay 2 (some (9/10))) "intensity" 0
          = some (2 * (9/10 : ℝ) ^ ((0:ℝ) * 100))
       ∧ computeChangeValue (.spikeDecay 2 (some (9/10))) "intensity" 0 = some 2
       ∧ (∀ v : ℝ, computeChangeValue (.spikeDecay 2 (some (9/10))) "intensity" (1/2) = some v →
            |v - 103/10000| < 1/10000)
       ∧ (2:ℝ) * (9/10) ^ ((1:ℝ) * 100) < 2 * (9/10 : ℝ) ^ ((0:ℝ) * 100)) :=
  ⟨⟨by norm_num, by norm_num, by norm_num, by norm_num⟩,
   C9_spike_decay_value "intensity" 2 (9/10) 0 0 1
     (by norm_num) (by norm_num) (by norm_num) (by norm_num)⟩

theorem detectOnset_fire (st : AnalyzerState) (now : ℤ)
    (h : st.onsetThreshold < st.spectralFlux ∧ 100 < now - st.lastOnsetTime) :
    detectOnset st now =
      (⟨true, st.spectralFlux, now⟩,
       { st with lastOnsetTime := now,
                 onsetHistory :=
                   if st.maxOnsetHistory < (st.onsetHistory ++ [now]).length
                   then (st.onsetHistory ++ [now]).tail
                   else st.onsetHistory ++ [now],
                 lastOnsetEvent := ⟨true, st.spectralFlux, now⟩ }) := by
  simp only [detectOnset, if_pos h]

theorem detectOnset_nofire (st : AnalyzerState) (now : ℤ)
    (h : ¬ (st.onsetThreshold < st.spectralFlux ∧ 100 < now - st.lastOnsetTime)) :
    detectOnset st now =
      (⟨false, st.spectralFlux, now⟩,
       { st with lastOnsetEvent := ⟨false, st.spectralFlux, now⟩ }) := by
  simp only [detectOnset, if_neg h]

theorem pairwise_gap_window (t : ℤ) :
    ∀ l : List ℤ, l.Pairwise (fun a b => a + 100 < b) →
      (l.filter (fun x => decide (t ≤ x ∧ x ≤ t + 100))).length ≤ 1 := by
  intro l
  induction l with
  | nil => intro _; simp
  | cons a l ih =>
      intro hp
      rw [List.pairwise_cons] at hp
      obtain ⟨ha, hl⟩ := hp
      by_cases hPa : t ≤ a ∧ a ≤ t + 100
      · rw [List.filter_cons_of_pos (by simpa using hPa)]
        have hnil : l.filter (fun x => decide (t ≤ x ∧ x ≤ t + 100)) = [] := by
          rw [List.filter_eq_nil_iff]
          intro b hb
          have hab := ha b hb
          simp only [decide_eq_true_eq]
          omega
        rw [hnil]
        simp
      · rw [List.filter_cons_of_neg (by simpa using hPa)]
        exact ih hl

theorem detectOnset_inv (st : AnalyzerState) (now : ℤ) (h : OnsetInvariant st) :
    OnsetInvariant (detectOnset st now).2 := by
  obtain ⟨hpw, hle, hlen⟩ := h
  by_cases hc : st.onsetThreshold < st.spectralFlux ∧ 100 < now - st.lastOnsetTime
  · obtain ⟨hc1, hc2⟩ := hc
    rw [detectOnset_fire st now ⟨hc1, hc2⟩]
    have hpw2 : (st.onsetHistory ++ [now]).Pairwise (fun a b => a + 100 < b) := by
      rw [List.pairwise_append]
      refine ⟨hpw, List.pairwise_singleton _ _, ?_⟩
      intro a ha b hb
      rw [List.mem_singleton] at hb
      subst hb
      have h1 := hle a ha
      omega
    have hle2 : ∀ x ∈ st.onsetHistory ++ [now], x ≤ now := by
      intro x hx
      rcases List.mem_append.mp hx with hx | hx
      · have := hle x hx; omega
      · rw [List.mem_singleton] at hx; omega
    by_cases hcap : st.maxOnsetHistory < (st.onsetHistory ++ [now]).length
    · refine ⟨?_, ?_, ?_⟩ <;> simp only [if_pos hcap]
      · exact List.Pairwise.sublist (List.tail_sublist _) hpw2
      · intro x hx
        exact hle2 x (List.mem_of_mem_tail hx)
      · rw [List.length_tail, List.length_append]
        simp only [List.length_singleton]
        omega
    · refine ⟨?_, ?_, ?_⟩ <;> simp only [if_neg hcap]
      · exact hpw2
      · exact hle2
      · rw [List.length_append] at hcap ⊢
        simp only [List.length_singleton] at hcap ⊢
        omega
  · rw [detectOnset_nofire st now hc]
    exact ⟨hpw, hle, hlen⟩

theorem runDetect_inv (inputs : List (ℚ × ℤ)) :
    ∀ st : AnalyzerState, OnsetInvariant st → OnsetInvariant (runDetect st inputs) := by
  induction inputs with
  | nil => intro st h; exact h
  | cons p rest ih =>
      intro st h
      obtain ⟨flux, now⟩ := p
      exact ih _ (detectOnset_inv { st with spectralFlux := flux } now h)

/-- Claim C6 counterexample: a first onset fires at 200 ms; at 300 ms
the flux (1) is above the threshold and exactly 100 ms have elapsed
since the recorded onset, yet the detector does not fire, refuting the
at-least-100-ms reading (the code requires strictly more than 100
ms). -/
theorem C6_counterexample :
    (detectOnset { initialAnalyzer with spectralFlux := 1 } 200).1.detected = true
    ∧ (detectOnset { initialAnalyzer with spectralFlux := 1 } 200).2.onsetThreshold
        < (detectOnset { initialAnalyzer with spectralFlux := 1 } 200).2.spectralFlux
    ∧ 300 - (detectOnset { initialAnalyzer with spectralFlux := 1 } 200).2.lastOnsetTime = 100
    ∧ (detectOnset (detectOnset { initialAnalyzer with spectralFlux := 1 } 200).2 300).1.detected
        = false := by
  have hc : ({ initialAnalyzer with spectralFlux := 1 } : AnalyzerState).onsetThreshold
      < ({ initialAnalyzer with spectralFlux := 1 } : AnalyzerState).spectralFlux
      ∧ (100 : ℤ) < 200 - ({ initialAnalyzer with spectralFlux := 1 } : AnalyzerState).lastOnsetTime := by
    constructor
    · show (3/20 : ℚ) < 1
      norm_num
    · show (100 : ℤ) < 200 - 0
      norm_num
  have hfire := detectOnset_fire { initialAnalyzer with spectralFlux := 1 } 200 hc
  refine ⟨?_, ?_, ?_, ?_⟩
  · rw [hfire]
  · rw [hfire]
    show (3/20 : ℚ) < 1
    norm_num
  · rw [hfire]
    show (300 : ℤ) - 200 = 100
    norm_num
  · rw [hfire, detectOnset_nofire]
    intro habs
    have h2 := habs.2
    revert h2
    show ¬ ((100 : ℤ) < 300 - 200)
    norm_num

/-- Claim C6 (amended): the onset detector fires exactly when the
spectral flux exceeds the onset threshold and strictly more than 100 ms
have elapsed since the previous onset; the detector state keeps its
invariant (history gaps above 100 ms, entries bounded by the last onset
time, history capped) over any run, so any rolling 100 ms window of a
run's recorded history holds at most one onset. -/
theorem C6_onset_gap_amended (st : AnalyzerState) (now : ℤ) (inputs : List (ℚ × ℤ))
    (t : ℤ) (hinv : OnsetInvariant st) :
    ((detectOnset st now).1.detected = true
        ↔ st.onsetThreshold < st.spectralFlux ∧ 100 < now - st.lastOnsetTime)
    ∧ OnsetInvariant (detectOnset st now).2
    ∧ OnsetInvariant (runDetect st inputs)
    ∧ ((runDetect st inputs).onsetHistory.filter
          (fun x => decide (t ≤ x ∧ x ≤ t + 100))).length ≤ 1 := by
  refine ⟨?_, detectOnset_inv st now hinv, runDetect_inv inputs st hinv,
    pairwise_gap_window t _ (runDetect_inv inputs st hinv).1⟩
  by_cases hc : st.onsetThreshold < st.spectralFlux ∧ 100 < now - st.lastOnsetTime
  · rw [detectOnset_fire st now hc]
    simpa using hc
  · rw [detectOnset_nofire st now hc]
    simpa using hc

/-- Witness for C6 (amended): from the fresh analyzer, flux crossing
the threshold every 40 ms starting at 200 ms records at most one onset
in the window [150, 250]. -/
theorem C6_onset_gap_amended_witness :
    OnsetInvariant initialAnalyzer
    ∧ ((runDetect initialAnalyzer [(1, 200), (1, 240), (1, 280), (1, 320)]).onsetHistory.filter
        (fun x => decide ((150 : ℤ) ≤ x ∧ x ≤ 150 + 100))).length ≤ 1 := by
  have hinv : OnsetInvariant initialAnalyzer :=
    ⟨List.Pairwise.nil, by intro x hx; exact absurd hx (List.not_mem_nil x), by decide⟩
  exact ⟨hinv,
    (C6_onset_gap_amended initialAnalyzer 200 [(1, 200), (1, 240), (1, 280), (1, 320)]
      150 hinv).2.2.2⟩

theorem checkTriggers_mem_mono (fires : String → Bool) (t : ℤ) :
    ∀ (seqs : List SeqDef) (acts : List ActiveSeq) (a : ActiveSeq),
      a ∈ acts → a ∈ checkTriggers fires t seqs acts := by
  intro seqs
  induction seqs with
  | nil =>
      intro acts a ha
      simpa only [checkTriggers] using ha
  | cons sq rest ih =>
      intro acts a ha
      simp only [checkTriggers]
      by_cases h1 : (acts.any fun b => b.name == sq.name) = true
      · rw [if_pos h1]; exact ih acts a ha
      · rw [if_neg h1]
        by_cases h2 : fires sq.name = true
        · rw [if_pos h2]
          exact ih _ a (List.mem_append_left _ ha)
        · rw [if_neg h2]; exact ih acts a ha

theorem checkTriggers_mem_origin (fires : String → Bool) (t : ℤ) :
    ∀ (seqs : List SeqDef) (acts : List ActiveSeq) (a : ActiveSeq),
      a ∈ checkTriggers fires t seqs acts →
      a ∈ acts ∨ (a.startTime = t ∧ fires a.name = true ∧ ∀ b ∈ acts, b.name ≠ a.name) := by
  intro seqs
  induction seqs with
  | nil =>
      intro acts a ha
      simp only [checkTriggers] at ha
      exact Or.inl ha
  | cons sq rest ih =>
      intro acts a ha
      simp only [checkTriggers] at ha
      by_cases h1 : (acts.any fun b => b.name == sq.name) = true
      · rw [if_pos h1] at ha; exact ih acts a ha
      · rw [if_neg h1] at ha
        by_cases h2 : fires sq.name = true
        · rw [if_pos h2] at ha
          have hnew : ∀ b ∈ acts, b.name ≠ sq.name := by
            intro b hb hbn
            apply h1
            rw [List.any_eq_true]
            exact ⟨b, hb, by simp [hbn]⟩
          rcases ih _ a ha with hmem | hprop
          · rcases List.mem_append.mp hmem with hmem2 | hmem2
            · exact Or.inl hmem2
            · rw [List.mem_singleton] at hmem2
              subst hmem2
              exact Or.inr ⟨rfl, h2, hnew⟩
          · obtain ⟨hst, hf, hall⟩ := hprop
            exact Or.inr ⟨hst, hf, fun b hb => hall b (List.mem_append_left _ hb)⟩
        · rw [if_neg h2] at ha
          exact ih acts a ha

theorem checkTriggers_nodup (fires : String → Bool) (t : ℤ) :
    ∀ (seqs : List SeqDef) (acts : List ActiveSeq),
      (acts.map ActiveSeq.name).Nodup →
      ((checkTriggers fires t seqs acts).map ActiveSeq.name).Nodup := by
  intro seqs
  induction seqs with
  | nil =>
      intro acts h
      simpa only [checkTriggers] using h
  | cons sq rest ih =>
      intro acts h
      simp only [checkTriggers]
      by_cases h1 : (acts.any fun b => b.name == sq.name) = true
      · rw [if_pos h1]; exact ih acts h
      · rw [if_neg h1]
        by_cases h2 : fires sq.name = true
        · rw [if_pos h2]
          apply ih
          rw [List.map_append, List.map_cons, List.map_nil, List.nodup_append]
          refine ⟨h, List.nodup_singleton _, ?_⟩
          intro x hx hx2
          rw [List.mem_singleton] at hx2
          subst hx2
          rw [List.mem_map] at hx
          obtain ⟨b, hb, hbn⟩ := hx
          apply h1
          rw [List.any_eq_true]
          exact ⟨b, hb, by simp [hbn]⟩
        · rw [if_neg h2]; exact ih acts h

/-- Claim C7: one sequence-management tick preserves name uniqueness of
the active set; every instance surviving the tick is inside its
half-open activity window [startTime, startTime + duration); instances
are created only when their trigger fires and no instance of the same
name was active, starting at the current tick time; an instance still
inside its window is kept, and one whose elapsed time reached its
duration is removed on this tick. -/
theorem C7_active_sequence_lifecycle (fires : String → Bool) (t : ℤ) (seqs : List SeqDef)
    (acts : List ActiveSeq)
    (hpast : ∀ a ∈ acts, a.startTime ≤ t)
    (hnodup : (acts.map ActiveSeq.name).Nodup) :
    ((tickSequences fires t seqs acts).map ActiveSeq.name).Nodup
    ∧ (∀ a ∈ tickSequences fires t seqs acts,
        a.startTime ≤ t ∧ t < a.startTime + a.duration)
    ∧ (∀ a ∈ tickSequences fires t seqs acts,
        a ∈ acts ∨ (a.startTime = t ∧ fires a.name = true ∧ ∀ b ∈ acts, b.name ≠ a.name))
    ∧ (∀ a ∈ acts, t < a.startTime + a.duration → a ∈ tickSequences fires t seqs acts)
    ∧ (∀ a ∈ acts, a.startTime + a.duration ≤ t → a ∉ tickSequences fires t seqs acts) := by
  have hsub : ∀ a ∈ tickSequences fires t seqs acts,
      a ∈ checkTriggers fires t seqs acts ∧ t - a.startTime < a.duration := by
    intro a ha
    rw [tickSequences, updateActiveSequences, List.mem_filter] at ha
    exact ⟨ha.1, by simpa using ha.2⟩
  refine ⟨?_, ?_, ?_, ?_, ?_⟩
  · have h1 := checkTriggers_nodup fires t seqs acts hnodup
    rw [tickSequences, updateActiveSequences]
    exact List.Nodup.sublist (List.Sublist.map _ (List.filter_sublist _)) h1
  · intro a ha
    obtain ⟨hct, hlt⟩ := hsub a ha
    rcases checkTriggers_mem_origin fires t seqs acts a hct with hmem | ⟨hst, _, _⟩
    · exact ⟨hpast a hmem, by omega⟩
    · constructor <;> omega
  · intro a ha
    exact checkTriggers_mem_origin fires t seqs acts a (hsub a ha).1
  · intro a ha hlt
    rw [tickSequences, updateActiveSequences, List.mem_filter]
    refine ⟨checkTriggers_mem_mono fires t seqs acts a ha, ?_⟩
    simp only [decide_eq_true_eq]
    omega
  · intro a ha hle hmem
    obtain ⟨_, hlt⟩ := hsub a hmem
    omega

/-- Witness for C7: the empty active set, one defined sequence whose
trigger fires at tick time 5. -/
theorem C7_active_sequence_lifecycle_witness :
    (∀ a ∈ ([] : List ActiveSeq), a.startTime ≤ (5 : ℤ))
    ∧ (([] : List ActiveSeq).map ActiveSeq.name).Nodup
    ∧ ((tickSequences (fun _ => true) 5 [⟨"drop", 10⟩] []).map ActiveSeq.name).Nodup := by
  have h1 : ∀ a ∈ ([] : List ActiveSeq), a.startTime ≤ (5 : ℤ) := by
    intro a ha
    exact absurd ha (List.not_mem_nil a)
  have h2 : (([] : List ActiveSeq).map ActiveSeq.name).Nodup := by simp
  exact ⟨h1, h2,
    (C7_active_sequence_lifecycle (fun _ => true) 5 [⟨"drop", 10⟩] [] h1 h2).1⟩
